import Mathlib

/-
Verification development for the live-telemetry charting core of
src/mast/datapower/status/docroot/plugin.js (the status plugin of the
mast web GUI).  The JavaScript is shallowly embedded: jQuery/DOM state
(the statusCharting input's value attribute, the set of chart container
elements, window.charts, window.timeout, pending setTimeout timers) is
carried in an explicit record, and each handler of the source becomes a
pure state-transformation function.  Chart.js chart objects are reduced
to the data the plugin manipulates: the labels array and one data array
per dataset (one dataset per appliance).  A dataset cell is an
Option Int because JavaScript pushes the literal undefined when the
response row is shorter than the appliance list.
-/

/- ===== Chart data (the chart.data object manipulated by add_data) ===== -/

/-- ChartData models chart.data of a Chart.js chart created by
initialize_chart: a labels list and one data list per dataset
(one dataset per appliance, in environment.appliances order). -/
structure ChartData where
  labels : List Nat
  datasets : List (List (Option Int))
  deriving Repr, DecidableEq

/-- StatusResponse models the JSON body handed to the success callback of
the POST to /status: a time field, the appliances echo, and one list of
per-appliance numeric values under each provider key. -/
structure StatusResponse where
  time : Nat
  appliances : List String
  vals : List (String × List Int)
  deriving Repr, DecidableEq

/-- lookupA is plain association-list lookup (JavaScript object property
read, none = undefined). -/
def lookupA {β : Type} (m : List (String × β)) (k : String) : Option β :=
  match m with
  | [] => none
  | (k1, v) :: rest => if k1 = k then some v else lookupA rest k

/-- updateA replaces the value stored under a key (JavaScript object
property write on an existing key). -/
def updateA {β : Type} (m : List (String × β)) (k : String) (v : β) :
    List (String × β) :=
  m.map (fun kv => if kv.1 = k then (k, v) else kv)

/-- respLookup reads data[provider] from the response body. -/
def respLookup (r : StatusResponse) (p : String) : Option (List Int) :=
  lookupA r.vals p

/-- pushInto is the inner loop of add_data over data.appliances: dataset
index i receives a push of data[provider][i] exactly when i is below the
response appliance count (vals.get? i is the pushed value, none standing
for the undefined JavaScript yields past the end of the row). -/
def pushInto (vals : List Int) : Nat → Nat → List (List (Option Int)) →
    List (List (Option Int))
  | _, _, [] => []
  | i, appl, ds :: rest =>
    (if i < appl then ds ++ [vals.get? i] else ds) ::
      pushInto vals (i + 1) appl rest

/-- shiftCheck is the eviction step of add_data: when the first dataset
has grown past config.charts.datapoints, shift the labels list and every
dataset once. -/
def shiftCheck (cap : Nat) (c : ChartData) : ChartData :=
  if cap < (c.datasets.headD []).length then
    { labels := c.labels.tail, datasets := c.datasets.map List.tail }
  else c

/-- addDataForProvider is the body of add_data for one selected provider:
push data.time onto labels, then push one value per response appliance
into the corresponding dataset, then run the eviction check.  The Bool is
false when the JavaScript would throw a TypeError: reading
data[provider][0] when the provider key is absent (and the response
appliance list is nonempty), or indexing datasets past its length.  The
mutations made before the throw are kept, as they are in JavaScript. -/
def addDataForProvider (cap : Nat) (r : StatusResponse) (p : String)
    (c : ChartData) : ChartData × Bool :=
  let c1 : ChartData := { c with labels := c.labels ++ [r.time] }
  let appl := r.appliances.length
  if appl = 0 then
    (shiftCheck cap c1, true)
  else
    match respLookup r p with
    | none => (c1, false)
    | some vs =>
      let ds := pushInto vs 0 appl c1.datasets
      if appl ≤ c1.datasets.length then
        (shiftCheck cap { c1 with datasets := ds }, true)
      else
        ({ c1 with datasets := ds }, false)

/-- addDataStep processes one provider of the selection inside add_data.
Once an earlier provider has thrown (flag false) nothing further runs.
A selected provider with no chart in window.charts throws at once
(reading .data of undefined), before the label push. -/
def addDataStep (cap : Nat) (r : StatusResponse)
    (acc : List (String × ChartData) × Bool) (p : String) :
    List (String × ChartData) × Bool :=
  if acc.2 then
    match lookupA acc.1 p with
    | none => (acc.1, false)
    | some c =>
      let res := addDataForProvider cap r p c
      (updateA acc.1 p res.1, res.2)
  else acc

/-- add_data (plugin.js lines 156 to 188): iterate the currently selected
providers in order, committing the response row of each into its chart;
the Bool records whether the pass completed without a JavaScript
exception. -/
def add_data (cap : Nat) (r : StatusResponse) (providers : List String)
    (charts : List (String × ChartData)) :
    List (String × ChartData) × Bool :=
  providers.foldl (addDataStep cap r) (charts, true)

/- ===== Session, registry and poll-loop state ===== -/

/-- Act is the log of externally visible operations of one handler
invocation: removal of a chart container from the DOM, creation of a
fresh chart widget, and issuing the POST to /status from get_data. -/
inductive Act where
  | destroy (p : String)
  | create (p : String)
  | fetch
  deriving Repr, DecidableEq

/-- SysState carries the mutable state the plugin reads and writes: the
value attribute of the statusCharting input, environment.appliances
(hostnames), the checked provider checkboxes in order, window.charts,
the set of chart container elements present in the DOM, window.timeout,
the pending setTimeout timers, and a fresh-handle counter. -/
structure SysState where
  toggle : String
  appliances : List String
  selected : List String
  charts : List (String × ChartData)
  containers : List String
  timeout : Option Nat
  pending : List Nat
  next : Nat
  deriving Repr, DecidableEq

/-- freshChart is the chart.data of a chart newly built by
initialize_chart: empty labels and one empty dataset per appliance. -/
def freshChart (appls : List String) : ChartData :=
  { labels := [], datasets := appls.map (fun _ => []) }

/-- initialize_chart (plugin.js lines 22 to 110): returns none without
touching the DOM when environment.appliances is empty; otherwise removes
any existing container for the provider, appends a fresh container, and
builds a new chart with one empty dataset per appliance. -/
def initialize_chart (appls : List String) (containers : List String)
    (p : String) : Option ChartData × List String × List Act :=
  if appls.length = 0 then
    (none, containers, [])
  else
    (some (freshChart appls), containers.erase p ++ [p],
      (if p ∈ containers then [Act.destroy p] else []) ++ [Act.create p])

/-- syncStep is the rebuild loop body of initialize_all: run
initialize_chart for one selected provider and record the resulting
chart under its key (the none branch is unreachable from initialize_all,
whose empty-appliances guard has already returned). -/
def syncStep (appls : List String)
    (acc : List String × List (String × ChartData) × List Act)
    (p : String) : List String × List (String × ChartData) × List Act :=
  match initialize_chart appls acc.1 p with
  | (some c, cs1, a) => (cs1, acc.2.1 ++ [(p, c)], acc.2.2 ++ a)
  | (none, cs1, a) => (cs1, acc.2.1, acc.2.2 ++ a)

/-- initialize_all (plugin.js lines 122 to 154): return unchanged when
the toggle still reads Start or there are no appliances; otherwise
remove the container of every charted provider that is no longer
selected, reset window.charts, rebuild a chart for every selected
provider, and call get_data (the trailing fetch action).  Random color
assignment (lines 129 to 138) touches only presentation state and is
omitted. -/
def initialize_all (s : SysState) : SysState × List Act :=
  if s.toggle = "Start" then (s, [])
  else if s.appliances.length = 0 then (s, [])
  else
    let rem := (s.charts.map Prod.fst).filter (fun p => ¬ p ∈ s.selected)
    let acts1 := (rem.filter (fun p => p ∈ s.containers)).map Act.destroy
    let containers1 := s.containers.filter (fun p => ¬ p ∈ rem)
    let res := s.selected.foldl (syncStep s.appliances) (containers1, [], [])
    ({ s with charts := res.2.1, containers := res.1 },
      acts1 ++ res.2.2 ++ [Act.fetch])

/-- clickToggle (plugin.js lines 231 to 239): when the input reads Start,
publish startCharting (which runs initialize_all synchronously, before
the value attribute is changed) and then set the value to Stop;
otherwise set the value to Start. -/
def clickToggle (s : SysState) : SysState × List Act :=
  if s.toggle = "Start" then
    let res := initialize_all s
    ({ res.1 with toggle := "Stop" }, res.2)
  else
    ({ s with toggle := "Start" }, [])

/-- checkboxChange (plugin.js lines 241 to 243): a provider checkbox
change publishes startCharting, running initialize_all. -/
def checkboxChange (s : SysState) : SysState × List Act :=
  initialize_all s

/-- Request is the body get_data POSTs to /status. -/
structure Request where
  appliances : List String
  credentials : List String
  providers : List String
  check_hostname : Bool
  deriving Repr, DecidableEq

/-- get_data_request (plugin.js lines 190 to 208): the request built by
get_data from the current appliances and provider selection; enc stands
for the external xor/cookie credential obfuscation.  get_data has no
guard on the device count: the ajax call is made unconditionally, which
the some constructor records (none would mean no request issued). -/
def get_data_request (enc : String → String)
    (env : List (String × String)) (selected : List String)
    (noCheckHostname : Bool) : Option Request :=
  some { appliances := env.map Prod.fst,
         credentials := env.map (fun a => enc a.2),
         providers := selected,
         check_hostname := !noCheckHostname }

/-- onSuccess (plugin.js lines 209 to 219): the success callback of the
/status POST.  It does nothing unless the toggle reads Stop; otherwise
it runs add_data with the selection current at response time, and only
when add_data completed without throwing does it clear window.timeout
(if set) and schedule the next get_data, storing the new handle. -/
def onSuccess (cap : Nat) (r : StatusResponse) (s : SysState) : SysState :=
  if s.toggle = "Stop" then
    let res := add_data cap r s.selected s.charts
    if res.2 then
      let pend1 := match s.timeout with
        | some t => s.pending.filter (fun h => h ≠ t)
        | none => s.pending
      { s with charts := res.1, pending := pend1 ++ [s.next],
               timeout := some s.next, next := s.next + 1 }
    else
      { s with charts := res.1 }
  else s

/-- Ev enumerates the events the plugin reacts to: a click on the
statusCharting input, a provider checkbox change, an external appliance
roster change followed by the modifyAppliances publish, a pending timer
firing (which starts a fetch whose completion is a separate success
event), and a fetch response arriving. -/
inductive Ev where
  | click
  | checkbox
  | modifyAppl (appls : List String)
  | fire (h : Nat)
  | success (r : StatusResponse)

/-- step runs one event against the state. -/
def step (cap : Nat) (s : SysState) : Ev → SysState
  | Ev.click => (clickToggle s).1
  | Ev.checkbox => (checkboxChange s).1
  | Ev.modifyAppl appls => (initialize_all { s with appliances := appls }).1
  | Ev.fire h => { s with pending := s.pending.filter (fun x => x ≠ h) }
  | Ev.success r => onSuccess cap r s

/-- run folds a list of events from a starting state. -/
def run (cap : Nat) (s : SysState) (evs : List Ev) : SysState :=
  evs.foldl (step cap) s

/- ===== Series cap behaviour (claim C5) ===== -/

/-- lastN keeps the most recent N elements of a list, in order. -/
def lastN {α : Type} (N : Nat) (l : List α) : List α :=
  l.drop (l.length - N)

/-- lastN of a list has length min N (length). -/
theorem lastN_length {α : Type} (N : Nat) (l : List α) :
    (lastN N l).length = min N l.length := by
  simp [lastN]; omega

/-- Appending below the cap extends the window. -/
theorem lastN_append_small {α : Type} (N : Nat) (l : List α) (x : α)
    (h : l.length < N) : lastN N (l ++ [x]) = lastN N l ++ [x] := by
  simp [lastN]
  rw [Nat.sub_eq_zero_of_le (by omega), Nat.sub_eq_zero_of_le (by omega)]
  simp

/-- Appending at or above the cap slides the window one step. -/
theorem lastN_append_big {α : Type} (N : Nat) (l : List α) (x : α)
    (hN : 0 < N) (h : N ≤ l.length) :
    lastN N (l ++ [x]) = (lastN N l).tail ++ [x] := by
  simp [lastN]
  rw [List.drop_append_of_le_length (by omega)]
  congr 2
  omega

/-- Tail distributes over append when the first list is nonempty. -/
theorem tail_append_of_ne_nil {α : Type} (a b : List α) (h : a ≠ []) :
    (a ++ b).tail = a.tail ++ b := by
  cases a with
  | nil => simp at h
  | cons x xs => simp

/-- tickAppend is one poll tick restricted to a single provider with a
single appliance: the add_data body for that provider applied to a
well-formed single-value response. -/
def tickAppend (cap : Nat) (c : ChartData) (t : Nat) (v : Int) : ChartData :=
  (addDataForProvider cap
    { time := t, appliances := ["dev"], vals := [("p", [v])] } "p" c).1

/-- seriesRun feeds a sequence of timestamped samples through tickAppend
starting from a freshly built single-appliance chart. -/
def seriesRun (cap : Nat) (samples : List (Nat × Int)) : ChartData :=
  samples.foldl (fun c s => tickAppend cap c s.1 s.2)
    { labels := [], datasets := [[]] }

/-- Computation shape of one tickAppend on a single-dataset chart. -/
theorem tickAppend_eval (cap : Nat) (L : List Nat) (D : List (Option Int))
    (t : Nat) (v : Int) :
    tickAppend cap { labels := L, datasets := [D] } t v =
      if cap < D.length + 1 then
        { labels := (L ++ [t]).tail, datasets := [(D ++ [some v]).tail] }
      else
        { labels := L ++ [t], datasets := [D ++ [some v]] } := by
  simp [tickAppend, addDataForProvider, respLookup, lookupA, pushInto,
    shiftCheck]

/-- One tickAppend moves a pair of synchronized lastN windows one sample
forward. -/
theorem tickAppend_step (N : Nat) (hN : 0 < N) (ts : List Nat)
    (vs : List Int) (hl : ts.length = vs.length) (t : Nat) (v : Int) :
    tickAppend N { labels := lastN N ts, datasets := [lastN N (vs.map some)] }
        t v =
      { labels := lastN N (ts ++ [t]),
        datasets := [lastN N ((vs ++ [v]).map some)] } := by
  rw [tickAppend_eval]
  have hD : (lastN N (vs.map some)).length = min N vs.length := by
    rw [lastN_length]; simp
  by_cases h : N ≤ vs.length
  · have hcond : N < (lastN N (vs.map some)).length + 1 := by omega
    rw [if_pos hcond]
    have hts : N ≤ ts.length := by omega
    have hL : (lastN N ts).length = N := by rw [lastN_length]; omega
    have hDlen : (lastN N (vs.map some)).length = N := by omega
    have hLne : lastN N ts ≠ [] := by
      intro hc; rw [hc] at hL; simp at hL; omega
    have hDne : lastN N (vs.map some) ≠ [] := by
      intro hc; rw [hc] at hDlen; simp at hDlen; omega
    rw [tail_append_of_ne_nil _ _ hLne, tail_append_of_ne_nil _ _ hDne]
    rw [← lastN_append_big N ts t hN hts,
      ← lastN_append_big N (vs.map some) (some v) hN (by simp; omega)]
    simp
  · have hcond : ¬ N < (lastN N (vs.map some)).length + 1 := by omega
    rw [if_neg hcond]
    rw [lastN_append_small N ts t (by omega),
      ← lastN_append_small N (vs.map some) (some v) (by simp; omega)]
    simp

/-- Folding tickAppend over further samples extends both windows. -/
theorem tickAppend_run (N : Nat) (hN : 0 < N) :
    ∀ (samples : List (Nat × Int)) (ts : List Nat) (vs : List Int),
      ts.length = vs.length →
      samples.foldl (fun c s => tickAppend N c s.1 s.2)
          { labels := lastN N ts, datasets := [lastN N (vs.map some)] } =
        { labels := lastN N (ts ++ samples.map Prod.fst),
          datasets := [lastN N ((vs ++ samples.map Prod.snd).map some)] } := by
  intro samples
  induction samples with
  | nil => intro ts vs hl; simp
  | cons s rest ih =>
    intro ts vs hl
    simp only [List.foldl_cons]
    rw [tickAppend_step N hN ts vs hl s.1 s.2]
    rw [ih (ts ++ [s.1]) (vs ++ [s.2]) (by simp [hl])]
    simp

/-- C5: for every sequence of single-sample appends with positive cap N,
after every prefix the series (labels and the per-appliance data,
evolving through add_data's push-then-shift body) has length at most N
and retains exactly the most recent min(count, N) samples in append
order, evicting strictly from the oldest end. -/
theorem series_cap_fifo_window (N : Nat) (hN : 0 < N)
    (samples : List (Nat × Int)) :
    (seriesRun N samples).labels.length ≤ N ∧
    (seriesRun N samples).labels = lastN N (samples.map Prod.fst) ∧
    (seriesRun N samples).datasets =
      [lastN N ((samples.map Prod.snd).map some)] := by
  have h0 : seriesRun N samples =
      { labels := lastN N ([] ++ samples.map Prod.fst),
        datasets := [lastN N (([] ++ samples.map Prod.snd).map some)] } := by
    rw [seriesRun]
    rw [show ({ labels := [], datasets := [[]] } : ChartData) =
      { labels := lastN N ([] : List Nat),
        datasets := [lastN N (([] : List Int).map some)] } by simp [lastN]]
    exact tickAppend_run N hN samples [] [] rfl
  rw [h0]
  refine ⟨?_, by simp, by simp⟩
  simp only [List.nil_append]
  rw [lastN_length]
  omega

/-- Witness for C5 at Scenario A: cap 3, timestamps 1,2,3,4 retain
exactly 2,3,4. -/
theorem series_cap_fifo_window_witness :
    (0 < 3 ∧
      ((seriesRun 3 [(1, 0), (2, 0), (3, 0), (4, 0)]).labels.length ≤ 3 ∧
        (seriesRun 3 [(1, 0), (2, 0), (3, 0), (4, 0)]).labels =
          lastN 3 ([(1, 0), (2, 0), (3, 0), (4, 0)].map Prod.fst) ∧
        (seriesRun 3 [(1, 0), (2, 0), (3, 0), (4, 0)]).datasets =
          [lastN 3 (([(1, 0), (2, 0), (3, 0), (4, 0)].map Prod.snd).map
            some)])) ∧
    (seriesRun 3 [(1, 0), (2, 0), (3, 0), (4, 0)]).labels = [2, 3, 4] :=
  ⟨⟨by decide,
    series_cap_fifo_window 3 (by decide) [(1, 0), (2, 0), (3, 0), (4, 0)]⟩,
    by decide⟩

/- ===== Timer invariant and stop semantics (claims C6, C8, C9) ===== -/

/-- initialize_all only ever writes window.charts and the chart
containers: toggle, appliances, selection, timer handle, pending timers
and the handle counter pass through unchanged. -/
theorem initialize_all_frame (s : SysState) :
    (initialize_all s).1.toggle = s.toggle ∧
    (initialize_all s).1.appliances = s.appliances ∧
    (initialize_all s).1.selected = s.selected ∧
    (initialize_all s).1.timeout = s.timeout ∧
    (initialize_all s).1.pending = s.pending ∧
    (initialize_all s).1.next = s.next := by
  unfold initialize_all
  split
  · simp
  · split
    · simp
    · simp

/-- timerInv: either no timer is pending, or exactly one is pending and
window.timeout holds its handle. -/
def timerInv (s : SysState) : Prop :=
  s.pending = [] ∨ ∃ t, s.pending = [t] ∧ s.timeout = some t

/-- Every event of the plugin preserves timerInv. -/
theorem timerInv_step (cap : Nat) (s : SysState) (e : Ev)
    (h : timerInv s) : timerInv (step cap s e) := by
  cases e with
  | click =>
    show timerInv (clickToggle s).1
    unfold clickToggle
    split
    · have hf := initialize_all_frame s
      unfold timerInv
      simp only [hf.2.2.2.1, hf.2.2.2.2.1]
      exact h
    · exact h
  | checkbox =>
    show timerInv (initialize_all s).1
    have hf := initialize_all_frame s
    unfold timerInv
    simp only [hf.2.2.2.1, hf.2.2.2.2.1]
    exact h
  | modifyAppl appls =>
    show timerInv (initialize_all { s with appliances := appls }).1
    have hf := initialize_all_frame { s with appliances := appls }
    unfold timerInv
    simp only [hf.2.2.2.1, hf.2.2.2.2.1]
    exact h
  | fire hd =>
    cases h with
    | inl h1 => left; simp [step, h1]
    | inr h2 =>
      obtain ⟨t, hp, ht⟩ := h2
      by_cases hth : t = hd
      · left; simp [step, hp, hth]
      · right; exact ⟨t, by simp [step, hp, hth], ht⟩
  | success r =>
    show timerInv (onSuccess cap r s)
    unfold timerInv at h ⊢
    by_cases hstop : s.toggle = "Stop"
    · by_cases hok : (add_data cap r s.selected s.charts).2 = true
      · refine Or.inr ⟨s.next, ?_, ?_⟩
        · cases h with
          | inl h1 =>
            cases htoo : s.timeout <;>
              simp [onSuccess, hstop, hok, h1, htoo]
          | inr h2 =>
            obtain ⟨t, hp, ht⟩ := h2
            simp [onSuccess, hstop, hok, hp, ht]
        · cases htoo : s.timeout <;> simp [onSuccess, hstop, hok, htoo]
      · have hB : (add_data cap r s.selected s.charts).2 = false := by
          simpa using hok
        have hfr : onSuccess cap r s =
            { s with charts := (add_data cap r s.selected s.charts).1 } := by
          simp [onSuccess, hstop, hB]
        rw [hfr]
        simpa using h
    · have hfr : onSuccess cap r s = s := by
        simp [onSuccess, hstop]
      rw [hfr]
      exact h

/-- timerInv holds along any run from a state satisfying it. -/
theorem timerInv_run (cap : Nat) (s0 : SysState) (evs : List Ev)
    (h : timerInv s0) : timerInv (run cap s0 evs) := by
  induction evs generalizing s0 with
  | nil => exact h
  | cons e rest ih =>
    show timerInv (run cap (step cap s0 e) rest)
    exact ih (step cap s0 e) (timerInv_step cap s0 e h)

/-- C6: after every sequence of start, stop and tick events from a state
with no pending timer, at most one reschedule timer is pending, because
the success path clears window.timeout before storing the replacement. -/
theorem at_most_one_pending_timer (cap : Nat) (s0 : SysState)
    (evs : List Ev) (h : s0.pending = []) :
    ((run cap s0 evs).pending).length ≤ 1 := by
  have hinv := timerInv_run cap s0 evs (Or.inl h)
  cases hinv with
  | inl h1 => rw [h1]; simp
  | inr h2 => obtain ⟨t, hp, _⟩ := h2; rw [hp]; simp

/-- sInit is a concrete idle starting state with one appliance and the
cpu provider checked. -/
def sInit : SysState :=
  { toggle := "Start", appliances := ["dp1"], selected := ["cpu"],
    charts := [], containers := [], timeout := none, pending := [],
    next := 0 }

/-- rOk is a concrete well-formed /status response for sInit. -/
def rOk : StatusResponse :=
  { time := 1, appliances := ["dp1"], vals := [("cpu", [5])] }

/-- evsEx is a concrete session: start, a checkbox sync, a completed
tick, a stop, the leftover timer firing, and an orphan completion. -/
def evsEx : List Ev :=
  [Ev.click, Ev.checkbox, Ev.success rOk, Ev.click, Ev.fire 0,
    Ev.success rOk]

/-- Witness for C6 on the concrete session evsEx. -/
theorem at_most_one_pending_timer_witness :
    sInit.pending = [] ∧ ((run 5 sInit evsEx).pending).length ≤ 1 :=
  ⟨by decide, at_most_one_pending_timer 5 sInit evsEx (by decide)⟩

/-- C9: a fetch response arriving while the toggle shows Start is
dropped whole: the success callback leaves the entire state unchanged,
appending nothing and scheduling nothing. -/
theorem orphan_response_dropped (cap : Nat) (r : StatusResponse)
    (s : SysState) (h : s.toggle = "Start") : onSuccess cap r s = s := by
  unfold onSuccess
  rw [h]
  simp

/-- sIdle is a concrete idle state holding chart data and a stale
pending timer. -/
def sIdle : SysState :=
  { toggle := "Start", appliances := ["dp1"], selected := ["cpu"],
    charts := [("cpu", { labels := [1], datasets := [[some 5]] })],
    containers := ["cpu"], timeout := some 7, pending := [7], next := 8 }

/-- Witness for C9 at the concrete idle state sIdle. -/
theorem orphan_response_dropped_witness :
    sIdle.toggle = "Start" ∧ onSuccess 5 rOk sIdle = sIdle :=
  ⟨by decide, orphan_response_dropped 5 rOk sIdle (by decide)⟩

/-- C8: flipping the toggle from Stop to Start neither cancels the
pending timer nor the in-flight fetch, and a fetch completing afterwards
schedules nothing, because the success callback re-checks the toggle. -/
theorem stop_does_not_cancel_but_gates_reschedule (cap : Nat)
    (r : StatusResponse) (s : SysState) (h : s.toggle = "Stop") :
    (clickToggle s).1.toggle = "Start" ∧
    (clickToggle s).1.pending = s.pending ∧
    (clickToggle s).1.timeout = s.timeout ∧
    (onSuccess cap r (clickToggle s).1).pending = (clickToggle s).1.pending ∧
    (onSuccess cap r (clickToggle s).1).timeout = (clickToggle s).1.timeout
    := by
  have h1 : clickToggle s = ({ s with toggle := "Start" }, []) := by
    unfold clickToggle
    rw [h]
    simp
  rw [h1]
  have h2 : onSuccess cap r { s with toggle := "Start" } =
      { s with toggle := "Start" } := by
    unfold onSuccess
    simp
  rw [h2]
  simp

/-- sMon is a concrete monitoring state with one pending timer
(Scenario C just after the first successful tick). -/
def sMon : SysState :=
  { toggle := "Stop", appliances := ["dp1"], selected := ["cpu"],
    charts := [("cpu", { labels := [1], datasets := [[some 5]] })],
    containers := ["cpu"], timeout := some 0, pending := [0], next := 1 }

/-- Witness for C8 at the concrete state sMon. -/
theorem stop_does_not_cancel_but_gates_reschedule_witness :
    sMon.toggle = "Stop" ∧
    ((clickToggle sMon).1.toggle = "Start" ∧
      (clickToggle sMon).1.pending = sMon.pending ∧
      (clickToggle sMon).1.timeout = sMon.timeout ∧
      (onSuccess 5 rOk (clickToggle sMon).1).pending =
        (clickToggle sMon).1.pending ∧
      (onSuccess 5 rOk (clickToggle sMon).1).timeout =
        (clickToggle sMon).1.timeout) :=
  ⟨by decide, stop_does_not_cancel_but_gates_reschedule 5 rOk sMon
    (by decide)⟩

/- ===== ChartRegistry.sync behaviour (claims C1, C2, C4) ===== -/

/-- pairActs is the destroy-then-create pair initialize_all performs for
each selected provider whose container already exists. -/
def pairActs : List String → List Act
  | [] => []
  | p :: rest => Act.destroy p :: Act.create p :: pairActs rest

/-- Unfolding of initialize_all on its main path. -/
theorem initialize_all_eq (s : SysState) (h1 : ¬ s.toggle = "Start")
    (h2 : ¬ s.appliances.length = 0) :
    initialize_all s =
      (let rem := (s.charts.map Prod.fst).filter
          (fun p => ¬ p ∈ s.selected)
       let res := s.selected.foldl (syncStep s.appliances)
          (s.containers.filter (fun p => ¬ p ∈ rem), [], [])
       ({ s with charts := res.2.1, containers := res.1 },
        ((rem.filter (fun p => p ∈ s.containers)).map Act.destroy)
          ++ res.2.2 ++ [Act.fetch])) := by
  unfold initialize_all
  rw [if_neg h1, if_neg h2]

/-- The rebuild loop records one fresh chart per selected provider. -/
theorem sync_fold_charts (appls : List String) (hap : appls ≠ []) :
    ∀ (sel cs : List String) (chs : List (String × ChartData))
      (acts : List Act),
      (sel.foldl (syncStep appls) (cs, chs, acts)).2.1 =
        chs ++ sel.map (fun p => (p, freshChart appls)) := by
  have hlen : ¬ appls.length = 0 := by simpa using hap
  intro sel
  induction sel with
  | nil => intro cs chs acts; simp
  | cons p rest ih =>
    intro cs chs acts
    simp only [List.foldl_cons]
    rw [show syncStep appls (cs, chs, acts) p =
        (cs.erase p ++ [p], chs ++ [(p, freshChart appls)],
          acts ++ ((if p ∈ cs then [Act.destroy p] else []) ++
            [Act.create p]))
      from by simp [syncStep, initialize_chart, hlen]]
    rw [ih]
    simp

/-- Containers present before the rebuild loop survive it. -/
theorem sync_fold_mem_preserve (appls : List String) (hap : appls ≠ []) :
    ∀ (sel cs : List String) (chs : List (String × ChartData))
      (acts : List Act) (q : String), q ∈ cs →
      q ∈ (sel.foldl (syncStep appls) (cs, chs, acts)).1 := by
  have hlen : ¬ appls.length = 0 := by simpa using hap
  intro sel
  induction sel with
  | nil => intro cs chs acts q hq; simpa using hq
  | cons p rest ih =>
    intro cs chs acts q hq
    simp only [List.foldl_cons]
    rw [show syncStep appls (cs, chs, acts) p =
        (cs.erase p ++ [p], chs ++ [(p, freshChart appls)],
          acts ++ ((if p ∈ cs then [Act.destroy p] else []) ++
            [Act.create p]))
      from by simp [syncStep, initialize_chart, hlen]]
    apply ih
    by_cases hqp : q = p
    · subst hqp; simp
    · exact List.mem_append_left _ ((List.mem_erase_of_ne hqp).mpr hq)

/-- Every selected provider has a container after the rebuild loop. -/
theorem sync_fold_mem_sel (appls : List String) (hap : appls ≠ []) :
    ∀ (sel cs : List String) (chs : List (String × ChartData))
      (acts : List Act) (q : String), q ∈ sel →
      q ∈ (sel.foldl (syncStep appls) (cs, chs, acts)).1 := by
  have hlen : ¬ appls.length = 0 := by simpa using hap
  intro sel
  induction sel with
  | nil => intro cs chs acts q hq; simp at hq
  | cons p rest ih =>
    intro cs chs acts q hq
    simp only [List.foldl_cons]
    rw [show syncStep appls (cs, chs, acts) p =
        (cs.erase p ++ [p], chs ++ [(p, freshChart appls)],
          acts ++ ((if p ∈ cs then [Act.destroy p] else []) ++
            [Act.create p]))
      from by simp [syncStep, initialize_chart, hlen]]
    cases List.mem_cons.mp hq with
    | inl hqp =>
      subst hqp
      apply sync_fold_mem_preserve appls hap
      simp
    | inr hqr => exact ih _ _ _ q hqr

/-- With every selected provider's container present, the rebuild loop
destroys and recreates each selected provider's widget, in order. -/
theorem sync_fold_acts (appls : List String) (hap : appls ≠ []) :
    ∀ (sel cs : List String) (chs : List (String × ChartData))
      (acts : List Act), (∀ p ∈ sel, p ∈ cs) →
      (sel.foldl (syncStep appls) (cs, chs, acts)).2.2 =
        acts ++ pairActs sel := by
  have hlen : ¬ appls.length = 0 := by simpa using hap
  intro sel
  induction sel with
  | nil => intro cs chs acts hsub; simp [pairActs]
  | cons p rest ih =>
    intro cs chs acts hsub
    have hp : p ∈ cs := hsub p (by simp)
    simp only [List.foldl_cons]
    rw [show syncStep appls (cs, chs, acts) p =
        (cs.erase p ++ [p], chs ++ [(p, freshChart appls)],
          acts ++ [Act.destroy p, Act.create p])
      from by simp [syncStep, initialize_chart, hlen, hp]]
    have hsub2 : ∀ q ∈ rest, q ∈ cs.erase p ++ [p] := by
      intro q hq
      by_cases hqp : q = p
      · subst hqp; simp
      · exact List.mem_append_left _
          ((List.mem_erase_of_ne hqp).mpr (hsub q (List.mem_cons_of_mem _ hq)))
    rw [ih _ _ _ hsub2]
    simp [pairActs]

/-- On its main path initialize_all rebuilds window.charts as one fresh
chart per selected provider and ends by calling get_data. -/
theorem initialize_all_charts (s : SysState) (h1 : ¬ s.toggle = "Start")
    (h2 : s.appliances ≠ []) :
    (initialize_all s).1.charts =
      s.selected.map (fun p => (p, freshChart s.appliances)) ∧
    Act.fetch ∈ (initialize_all s).2 := by
  have hlen : ¬ s.appliances.length = 0 := by simpa using h2
  rw [initialize_all_eq s h1 hlen]
  constructor
  · simp only []
    rw [sync_fold_charts s.appliances h2]
    simp
  · simp

/-- Every selected provider has a container after initialize_all's main
path. -/
theorem initialize_all_containers_sel (s : SysState)
    (h1 : ¬ s.toggle = "Start") (h2 : s.appliances ≠ []) :
    ∀ q ∈ s.selected, q ∈ (initialize_all s).1.containers := by
  have hlen : ¬ s.appliances.length = 0 := by simpa using h2
  rw [initialize_all_eq s h1 hlen]
  intro q hq
  simp only []
  exact sync_fold_mem_sel s.appliances h2 _ _ _ _ q hq

/-- C1: clicking the statusCharting input while it reads Start publishes
startCharting before the value attribute is flipped, so initialize_all
observes Start and returns at its first guard: no chart is rebuilt and
no first get_data tick is issued (the action list is empty) even with a
nonempty DeviceSet and a nonempty ProviderSelection — the transition
flips the display only. -/
theorem click_while_start_skips_sync :
    clickToggle sInit = ({ sInit with toggle := "Stop" }, []) := by decide

/-- sC2 is a concrete idle state in which the cpu checkbox has just been
unchecked while its chart widget is still present. -/
def sC2 : SysState :=
  { toggle := "Start", appliances := ["dp1"], selected := [],
    charts := [("cpu", { labels := [1], datasets := [[some 5]] })],
    containers := ["cpu"], timeout := none, pending := [], next := 0 }

/-- Counterexample to C2: while Idle, a checkbox change leaves the state
untouched — the deselected cpu widget (chart entry and container) stays,
and no destroy is performed. -/
theorem idle_deselect_keeps_widget :
    checkboxChange sC2 = (sC2, []) ∧ "cpu" ∈ sC2.containers ∧
    ¬ "cpu" ∈ sC2.selected := by decide

/-- C2 amended: a checkbox toggle runs initialize_all, but the sync it
performs is gated on the SessionToggle: while the toggle reads Start the
handler is a no-op (deselected widgets stay), and only while it reads
Stop (with a nonempty DeviceSet) are the charts rebuilt to exactly the
current selection and a poll issued. -/
theorem checkbox_sync_gated_by_toggle (s : SysState) :
    (s.toggle = "Start" → checkboxChange s = (s, [])) ∧
    (s.toggle = "Stop" → s.appliances ≠ [] →
      (checkboxChange s).1.charts =
        s.selected.map (fun p => (p, freshChart s.appliances)) ∧
      Act.fetch ∈ (checkboxChange s).2) := by
  constructor
  · intro h
    show initialize_all s = (s, [])
    unfold initialize_all
    rw [if_pos h]
  · intro h1 h2
    have h1n : ¬ s.toggle = "Start" := by rw [h1]; decide
    exact initialize_all_charts s h1n h2

/-- Witness for C2's amended theorem at the concrete monitoring state
sMon. -/
theorem checkbox_sync_gated_by_toggle_witness :
    sMon.toggle = "Stop" ∧ sMon.appliances ≠ [] ∧
    ((checkboxChange sMon).1.charts =
      sMon.selected.map (fun p => (p, freshChart sMon.appliances)) ∧
     Act.fetch ∈ (checkboxChange sMon).2) :=
  ⟨by decide, by decide,
    (checkbox_sync_gated_by_toggle sMon).2 (by decide) (by decide)⟩

/-- sC4 is a concrete monitoring state whose registry already matches
the selection exactly. -/
def sC4 : SysState :=
  { toggle := "Stop", appliances := ["dp1"], selected := ["cpu"],
    charts := [("cpu", { labels := [], datasets := [[]] })],
    containers := ["cpu"], timeout := none, pending := [], next := 0 }

/-- Counterexample to C4: calling sync twice with identical selection
and devices is destructive on the second call — it removes and recreates
the cpu widget (and re-issues get_data). -/
theorem second_sync_still_destroys :
    (initialize_all (initialize_all sC4).1).2 =
      [Act.destroy "cpu", Act.create "cpu", Act.fetch] := by decide

/-- C4 amended: initialize_all is not idempotent; on every monitoring
invocation, including an immediate repeat with unchanged selection and
devices, it destroys and recreates the widget of every selected provider
(discarding its Series, left empty) and issues get_data again. -/
theorem sync_rebuilds_every_selected_chart (s : SysState)
    (h1 : s.toggle = "Stop") (h2 : s.appliances ≠ []) :
    (initialize_all (initialize_all s).1).2 =
      pairActs s.selected ++ [Act.fetch] ∧
    (initialize_all (initialize_all s).1).1.charts =
      s.selected.map (fun p => (p, freshChart s.appliances)) := by
  have h1n : ¬ s.toggle = "Start" := by rw [h1]; decide
  have hf := initialize_all_frame s
  have h1s : ¬ (initialize_all s).1.toggle = "Start" := by
    rw [hf.1, h1]; decide
  have h2s : (initialize_all s).1.appliances ≠ [] := by
    rw [hf.2.1]; exact h2
  have hlens : ¬ (initialize_all s).1.appliances.length = 0 := by
    simpa using h2s
  have hsel : (initialize_all s).1.selected = s.selected := hf.2.2.1
  have hch := (initialize_all_charts s h1n h2).1
  have hcont := initialize_all_containers_sel s h1n h2
  have hrem : ((initialize_all s).1.charts.map Prod.fst).filter
      (fun p => ¬ p ∈ (initialize_all s).1.selected) = [] := by
    rw [hch, hsel, List.map_map]
    rw [show (Prod.fst ∘ fun p => (p, freshChart s.appliances)) = id
      from rfl]
    rw [List.map_id, List.filter_eq_nil_iff]
    intro a ha
    simp [ha]
  have hcfil : (initialize_all s).1.containers.filter
      (fun p => ¬ p ∈ ([] : List String)) =
      (initialize_all s).1.containers := by
    simp
  have hsub : ∀ p ∈ (initialize_all s).1.selected,
      p ∈ (initialize_all s).1.containers := by
    rw [hsel]; exact hcont
  rw [initialize_all_eq (initialize_all s).1 h1s hlens]
  constructor
  · simp only [hrem]
    rw [hcfil]
    rw [sync_fold_acts (initialize_all s).1.appliances h2s _ _ _ _ hsub]
    rw [hsel]
    simp
  · simp only [hrem]
    rw [hcfil]
    rw [sync_fold_charts (initialize_all s).1.appliances h2s]
    rw [hsel, hf.2.1]
    simp

/-- Witness for C4's amended theorem at the concrete state sC4. -/
theorem sync_rebuilds_every_selected_chart_witness :
    sC4.toggle = "Stop" ∧ sC4.appliances ≠ [] ∧
    ((initialize_all (initialize_all sC4).1).2 =
      pairActs sC4.selected ++ [Act.fetch] ∧
     (initialize_all (initialize_all sC4).1).1.charts =
      sC4.selected.map (fun p => (p, freshChart sC4.appliances))) :=
  ⟨by decide, by decide,
    sync_rebuilds_every_selected_chart sC4 (by decide) (by decide)⟩

/- ===== Batch commitment on a malformed response (claim C3) ===== -/

/-- chartsD holds freshly built charts for cpu and memory over one
appliance (Scenario D's starting registry). -/
def chartsD : List (String × ChartData) :=
  [("cpu", { labels := [], datasets := [[]] }),
    ("memory", { labels := [], datasets := [[]] })]

/-- Counterexample to C3: with selection [cpu, memory] and the response
rOk missing the memory key, add_data throws (flag false, so the tick
does not reschedule) yet cpu's series has already received its sample —
commitment is not atomic. -/
theorem missing_key_commits_earlier_providers :
    (add_data 10 rOk ["cpu", "memory"] chartsD).2 = false ∧
    lookupA (add_data 10 rOk ["cpu", "memory"] chartsD).1 "cpu" =
      some { labels := [1], datasets := [[some 5]] } := by decide

/-- Processing stays put once a provider has thrown. -/
theorem add_data_error_absorb (cap : Nat) (r : StatusResponse)
    (l : List String) (m : List (String × ChartData)) :
    l.foldl (addDataStep cap r) (m, false) = (m, false) := by
  induction l with
  | nil => rfl
  | cons p rest ih => simpa only [List.foldl_cons] using ih

/-- add_data splits along an append of the selection: the second part
runs only if the first completed. -/
theorem add_data_append (cap : Nat) (r : StatusResponse)
    (l1 l2 : List String) (m : List (String × ChartData)) :
    add_data cap r (l1 ++ l2) m =
      (if (add_data cap r l1 m).2 then
        add_data cap r l2 (add_data cap r l1 m).1
       else add_data cap r l1 m) := by
  simp only [add_data]
  rw [List.foldl_append]
  rcases hsplit : List.foldl (addDataStep cap r) (m, true) l1 with ⟨c1, ok⟩
  cases ok with
  | true => simp
  | false => simp [add_data_error_absorb cap r l2 c1]

/-- add_data on a single provider whose key is missing from a response
with a nonempty appliance list: the label is pushed, then the throw. -/
theorem add_data_missing_step (cap : Nat) (r : StatusResponse)
    (bad : String) (m : List (String × ChartData)) (cb : ChartData)
    (hcb : lookupA m bad = some cb)
    (hmiss : respLookup r bad = none)
    (hap : r.appliances ≠ []) :
    add_data cap r [bad] m =
      (updateA m bad { cb with labels := cb.labels ++ [r.time] }, false)
    := by
  have hlen : ¬ r.appliances.length = 0 := by simpa using hap
  simp [add_data, addDataStep, hcb, addDataForProvider, hlen, hmiss]

/-- C3 amended: commitment is per-provider in selection order, not
atomic: when the response (with a nonempty appliance list) lacks the key
of a selected provider, processing stops there — providers earlier in
the order keep their committed samples, the failing provider keeps a
dangling label, later providers are untouched — and the success callback
does not reschedule (pending timers and window.timeout unchanged). -/
theorem add_data_not_atomic_stops_at_missing (cap : Nat)
    (r : StatusResponse) (pre : List String) (bad : String)
    (rest : List String) (charts : List (String × ChartData))
    (cb : ChartData)
    (hpre : (add_data cap r pre charts).2 = true)
    (hcb : lookupA (add_data cap r pre charts).1 bad = some cb)
    (hmiss : respLookup r bad = none)
    (hap : r.appliances ≠ []) :
    add_data cap r (pre ++ bad :: rest) charts =
      (updateA (add_data cap r pre charts).1 bad
        { cb with labels := cb.labels ++ [r.time] }, false) ∧
    ∀ s : SysState, s.toggle = "Stop" →
      s.selected = pre ++ bad :: rest → s.charts = charts →
      (onSuccess cap r s).pending = s.pending ∧
      (onSuccess cap r s).timeout = s.timeout := by
  have hmain : add_data cap r (pre ++ bad :: rest) charts =
      (updateA (add_data cap r pre charts).1 bad
        { cb with labels := cb.labels ++ [r.time] }, false) := by
    rw [show pre ++ bad :: rest = (pre ++ [bad]) ++ rest from by simp]
    rw [add_data_append cap r (pre ++ [bad]) rest charts]
    have hbadrun : add_data cap r (pre ++ [bad]) charts =
        (updateA (add_data cap r pre charts).1 bad
          { cb with labels := cb.labels ++ [r.time] }, false) := by
      rw [add_data_append cap r pre [bad] charts, if_pos hpre]
      exact add_data_missing_step cap r bad _ cb hcb hmiss hap
    rw [hbadrun]
    simp
  refine ⟨hmain, ?_⟩
  intro s hst hsel hch
  have hsc : add_data cap r s.selected s.charts =
      (updateA (add_data cap r pre charts).1 bad
        { cb with labels := cb.labels ++ [r.time] }, false) := by
    rw [hsel, hch]; exact hmain
  constructor <;> simp [onSuccess, hst, hsc]

/-- sD is the concrete Scenario D monitoring state. -/
def sD : SysState :=
  { toggle := "Stop", appliances := ["dp1"],
    selected := ["cpu", "memory"], charts := chartsD,
    containers := ["cpu", "memory"], timeout := some 3, pending := [3],
    next := 4 }

/-- Witness for C3's amended theorem at Scenario D. -/
theorem add_data_not_atomic_stops_at_missing_witness :
    ((add_data 10 rOk ["cpu"] chartsD).2 = true ∧
      lookupA (add_data 10 rOk ["cpu"] chartsD).1 "memory" =
        some { labels := [], datasets := [[]] } ∧
      respLookup rOk "memory" = none ∧ rOk.appliances ≠ []) ∧
    (onSuccess 10 rOk sD).pending = sD.pending ∧
    (onSuccess 10 rOk sD).timeout = sD.timeout :=
  ⟨⟨by decide, by decide, by decide, by decide⟩,
    (add_data_not_atomic_stops_at_missing 10 rOk ["cpu"] "memory" []
      chartsD { labels := [], datasets := [[]] } (by decide) (by decide)
      (by decide) (by decide)).2 sD (by decide) (by decide) (by decide)⟩

/- ===== Empty DeviceSet behaviour (claim C7) ===== -/

/-- Counterexample to C7: get_data builds and issues the POST even for
zero devices — the request is some (issued), with empty appliance and
credential lists. -/
theorem tick_fetches_with_zero_devices :
    get_data_request (fun c => c) [] ["cpu"] false =
      some { appliances := [], credentials := [], providers := ["cpu"],
             check_hostname := true } := rfl

/-- C7 amended: get_data itself never skips — it issues the request
unconditionally, with empty device and credential lists when the
DeviceSet is empty; the empty-DeviceSet skip exists only in
initialize_all, which returns (issuing nothing) before calling get_data
when there are no appliances. -/
theorem empty_device_skip_only_in_sync (enc : String → String)
    (sel : List String) (noChk : Bool) (s : SysState)
    (h : s.appliances = []) :
    (get_data_request enc [] sel noChk).isSome = true ∧
    initialize_all s = (s, []) := by
  constructor
  · rfl
  · unfold initialize_all
    by_cases ht : s.toggle = "Start"
    · rw [if_pos ht]
    · rw [if_neg ht, if_pos (by rw [h]; rfl : s.appliances.length = 0)]

/-- sEmpty is a concrete monitoring state whose appliance roster has
become empty. -/
def sEmpty : SysState :=
  { toggle := "Stop", appliances := [], selected := ["cpu"],
    charts := [], containers := [], timeout := none, pending := [],
    next := 0 }

/-- Witness for C7's amended theorem at sEmpty. -/
theorem empty_device_skip_only_in_sync_witness :
    sEmpty.appliances = [] ∧
    ((get_data_request (fun c => c) [] ["cpu"] true).isSome = true ∧
      initialize_all sEmpty = (sEmpty, [])) :=
  ⟨by decide,
    empty_device_skip_only_in_sync (fun c => c) ["cpu"] true sEmpty
      (by decide)⟩

/- ===== Label/dataset alignment (claim C10) ===== -/

/-- Aligned: the labels list and every dataset of a chart have equal
length. -/
def Aligned (c : ChartData) : Prop :=
  ∀ ds ∈ c.datasets, ds.length = c.labels.length

/-- pushInto preserves the number of datasets. -/
theorem pushInto_length (vals : List Int) :
    ∀ (dss : List (List (Option Int))) (i appl : Nat),
      (pushInto vals i appl dss).length = dss.length := by
  intro dss
  induction dss with
  | nil => intro i appl; rfl
  | cons d rest ih => intro i appl; simp [pushInto, ih]

/-- When the loop bound covers every dataset, each dataset grows by
exactly one cell. -/
theorem pushInto_mem_length (vals : List Int) (n : Nat) :
    ∀ (dss : List (List (Option Int))) (i appl : Nat),
      (∀ ds ∈ dss, ds.length = n) → i + dss.length ≤ appl →
      ∀ ds ∈ pushInto vals i appl dss, ds.length = n + 1 := by
  intro dss
  induction dss with
  | nil => intro i appl h hle ds hds; simp [pushInto] at hds
  | cons d rest ih =>
    intro i appl h hle ds hds
    have hi : i < appl := by
      simp only [List.length_cons] at hle; omega
    simp only [pushInto, if_pos hi] at hds
    rcases List.mem_cons.mp hds with h1 | h2
    · rw [h1, List.length_append, h d (by simp)]
      simp
    · exact ih (i + 1) appl
        (fun x hx => h x (List.mem_cons_of_mem _ hx))
        (by simp only [List.length_cons] at hle; omega) ds h2

/-- shiftCheck keeps the chart aligned and the dataset count fixed. -/
theorem shiftCheck_aligned (cap : Nat) (c : ChartData) (hA : Aligned c) :
    Aligned (shiftCheck cap c) ∧
    (shiftCheck cap c).datasets.length = c.datasets.length := by
  unfold shiftCheck
  split
  · constructor
    · intro ds hds
      simp only at hds ⊢
      rcases List.mem_map.mp hds with ⟨d0, hd0, hddef⟩
      rw [← hddef]
      simp [List.length_tail, hA d0 hd0]
    · simp
  · exact ⟨hA, rfl⟩

/-- lookupA only returns stored pairs. -/
theorem lookupA_mem {β : Type} (m : List (String × β)) (k : String)
    (v : β) (h : lookupA m k = some v) : (k, v) ∈ m := by
  induction m with
  | nil => simp [lookupA] at h
  | cons kv rest ih =>
    rcases kv with ⟨k1, v1⟩
    by_cases hk : k1 = k
    · simp only [lookupA, if_pos hk] at h
      subst hk
      injection h with h1
      subst h1
      simp
    · simp only [lookupA, if_neg hk] at h
      exact List.mem_cons_of_mem _ (ih h)

/-- Members of updateA are the new pair or old members. -/
theorem updateA_mem {β : Type} (m : List (String × β)) (k : String)
    (v : β) : ∀ x ∈ updateA m k v, x = (k, v) ∨ x ∈ m := by
  intro x hx
  unfold updateA at hx
  rcases List.mem_map.mp hx with ⟨y, hy, hxy⟩
  by_cases hk : y.1 = k
  · rw [if_pos hk] at hxy
    exact Or.inl hxy.symm
  · rw [if_neg hk] at hxy
    exact Or.inr (hxy ▸ hy)

/-- One provider's add_data body keeps its chart aligned, keeps the
dataset count equal to the response appliance count, and completes
without throwing, provided the chart had that layout and the response
carries the provider's key. -/
theorem addDataForProvider_aligned (cap : Nat) (r : StatusResponse)
    (p : String) (c : ChartData) (hA : Aligned c)
    (hc : c.datasets.length = r.appliances.length)
    (hk : (respLookup r p).isSome) :
    Aligned (addDataForProvider cap r p c).1 ∧
    (addDataForProvider cap r p c).1.datasets.length =
      r.appliances.length ∧
    (addDataForProvider cap r p c).2 = true := by
  obtain ⟨vs, hvs⟩ := Option.isSome_iff_exists.mp hk
  unfold addDataForProvider
  by_cases h0 : r.appliances.length = 0
  · rw [if_pos h0]
    have hnil : c.datasets = [] := List.length_eq_zero.mp (by omega)
    have hA1 : Aligned { c with labels := c.labels ++ [r.time] } := by
      intro ds hds
      rw [show ({ c with labels := c.labels ++ [r.time] } :
        ChartData).datasets = c.datasets from rfl, hnil] at hds
      simp at hds
    have hs := shiftCheck_aligned cap _ hA1
    refine ⟨hs.1, ?_, rfl⟩
    rw [hs.2]
    simp [hnil, h0]
  · rw [if_neg h0]
    simp only [hvs]
    have hle : r.appliances.length ≤
        ({ c with labels := c.labels ++ [r.time] } :
          ChartData).datasets.length := by
      simp [hc]
    rw [if_pos hle]
    have hpl : (pushInto vs 0 r.appliances.length c.datasets).length =
        c.datasets.length := pushInto_length vs c.datasets 0 _
    have hpm : ∀ ds ∈ pushInto vs 0 r.appliances.length c.datasets,
        ds.length = c.labels.length + 1 :=
      pushInto_mem_length vs c.labels.length c.datasets 0
        r.appliances.length hA (by omega)
    have hA2 : Aligned (ChartData.mk (c.labels ++ [r.time])
        (pushInto vs 0 r.appliances.length c.datasets)) := by
      intro ds hds
      simp only [List.length_append, List.length_cons, List.length_nil]
      rw [hpm ds hds]
    have hs := shiftCheck_aligned cap _ hA2
    refine ⟨hs.1, ?_, rfl⟩
    rw [hs.2]
    simp only []
    rw [hpl, hc]

/-- Aligned is decidable, so witnesses can evaluate it. -/
instance decidableAligned (c : ChartData) : Decidable (Aligned c) := by
  unfold Aligned
  infer_instance

/-- AlignedMap: every chart of the registry is aligned. -/
def AlignedMap (m : List (String × ChartData)) : Prop :=
  ∀ pc ∈ m, Aligned pc.2

/-- AlignedMap is decidable, so witnesses can evaluate it. -/
instance decidableAlignedMap (m : List (String × ChartData)) :
    Decidable (AlignedMap m) := by
  unfold AlignedMap
  infer_instance

/-- LayoutMap: every chart of the registry has n datasets. -/
def LayoutMap (m : List (String × ChartData)) (n : Nat) : Prop :=
  ∀ pc ∈ m, pc.2.datasets.length = n

/-- LayoutMap is decidable, so witnesses can evaluate it. -/
instance decidableLayoutMap (m : List (String × ChartData)) (n : Nat) :
    Decidable (LayoutMap m n) := by
  unfold LayoutMap
  infer_instance

/-- The add_data fold preserves alignment and layout of the registry
when the response has a key for every remaining provider. -/
theorem add_data_fold_aligned (cap : Nat) (r : StatusResponse) :
    ∀ (providers : List String)
      (acc : List (String × ChartData) × Bool),
      AlignedMap acc.1 → LayoutMap acc.1 r.appliances.length →
      (∀ p ∈ providers, (respLookup r p).isSome) →
      AlignedMap (providers.foldl (addDataStep cap r) acc).1 ∧
      LayoutMap (providers.foldl (addDataStep cap r) acc).1
        r.appliances.length := by
  intro providers
  induction providers with
  | nil => intro acc h1 h2 _; exact ⟨h1, h2⟩
  | cons p rest ih =>
    intro acc h1 h2 h3
    simp only [List.foldl_cons]
    have hnext : AlignedMap (addDataStep cap r acc p).1 ∧
        LayoutMap (addDataStep cap r acc p).1 r.appliances.length := by
      by_cases hon : acc.2 = true
      · cases hl : lookupA acc.1 p with
        | none =>
          simp only [addDataStep, hon, if_true, hl]
          exact ⟨h1, h2⟩
        | some c =>
          have hmem : (p, c) ∈ acc.1 := lookupA_mem acc.1 p c hl
          have hprov := addDataForProvider_aligned cap r p c
            (h1 (p, c) hmem) (h2 (p, c) hmem) (h3 p (by simp))
          simp only [addDataStep, hon, if_true, hl]
          constructor
          · intro pc hpc
            rcases updateA_mem acc.1 p _ pc hpc with hnew | hold
            · rw [hnew]; exact hprov.1
            · exact h1 pc hold
          · intro pc hpc
            rcases updateA_mem acc.1 p _ pc hpc with hnew | hold
            · rw [hnew]; exact hprov.2.1
            · exact h2 pc hold
      · have hoff : acc.2 = false := by simpa using hon
        rw [show addDataStep cap r acc p = acc from by
          simp [addDataStep, hoff]]
        exact ⟨h1, h2⟩
    exact ih (addDataStep cap r acc p) hnext.1 hnext.2
      (fun q hq => h3 q (List.mem_cons_of_mem _ hq))

/-- C10: when every chart is aligned with as many datasets as the
response has appliances and the response carries a key for every
selected provider, add_data completes one push per label and dataset
(with a joint shift on overflow), leaving every chart aligned again. -/
theorem add_data_preserves_alignment (cap : Nat) (r : StatusResponse)
    (providers : List String) (charts : List (String × ChartData))
    (h1 : AlignedMap charts)
    (h2 : LayoutMap charts r.appliances.length)
    (h3 : ∀ p ∈ providers, (respLookup r p).isSome) :
    AlignedMap (add_data cap r providers charts).1 :=
  (add_data_fold_aligned cap r providers (charts, true) h1 h2 h3).1

/-- chartsW is a concrete aligned single-appliance registry mid-run. -/
def chartsW : List (String × ChartData) :=
  [("cpu", { labels := [1], datasets := [[some 2]] })]

/-- Witness for C10 at a concrete aligned registry and well-formed
response. -/
theorem add_data_preserves_alignment_witness :
    (AlignedMap chartsW ∧ LayoutMap chartsW rOk.appliances.length ∧
      ∀ p ∈ ["cpu"], (respLookup rOk p).isSome) ∧
    AlignedMap (add_data 1 rOk ["cpu"] chartsW).1 :=
  ⟨⟨by decide, by decide, by decide⟩,
    add_data_preserves_alignment 1 rOk ["cpu"] chartsW (by decide)
      (by decide) (by decide)⟩
